import Mathlib

/-!
Verification of the session-tracking and leaderboard-accounting core of
`src/presence_bot.py`, shallowly embedded in Lean.

Modelling conventions:
* Instants are integer seconds (`Int`); Python `(a - b).total_seconds()` becomes `a - b`.
* Discord ids are `Nat`; game names are `String`.
* The session table `playing_start_times` (a Python dict iterated by the
  background sweeps) is an association list; the two leaderboard documents
  (dicts whose guild key may be absent) are functions to `Option`.
* Every `save_data` call is surfaced as a `Bool` result, so claims about what
  gets persisted can be stated.
* Network lookups (`bot.get_guild`, `guild.get_member`, `guild.get_channel`,
  channel name resolution) and message sends are an explicit environment `Env`
  of resolvability and send-success predicates; a send that raises
  `discord.HTTPException` is a send with `sendOk = false`.
-/

/-- One active session record, the value of `playing_start_times[user_id]`
(src/presence_bot.py, lines 170-177).  `milestones_hit` is the Python set of
announced thresholds, modelled as a duplicate-free list of minutes. -/
structure Session where
  start_time : Int
  last_updated : Int
  game : String
  milestones_hit : List Nat
  guild_id : Nat
  channel_id : Option Nat
deriving Repr, DecidableEq

/-- `playing_start_times`: user id keyed association list. -/
abbrev Sessions := List (Nat × Session)

/-- `leaderboard_data`: guild id keyed, then user id keyed seconds totals. -/
abbrev Lb := Nat → Option (Nat → Option Int)

/-- `game_leaderboard_data`: guild id keyed, then game name keyed totals. -/
abbrev GLb := Nat → Option (String → Option Int)

/-- Lookup in the session dict (`member.id in playing_start_times` and
`playing_start_times[member.id]`). -/
def slookup (u : Nat) : Sessions → Option Session
  | [] => none
  | (k, s) :: rest => if k = u then some s else slookup u rest

/-- `playing_start_times.pop(member.id)`: removal of a user's entry. -/
def removeUser (u : Nat) : Sessions → Sessions
  | [] => []
  | (k, s) :: rest => if k = u then removeUser u rest else (k, s) :: removeUser u rest

/-- Whether a user id occurs among the dict keys. -/
def keyMem (u : Nat) : Sessions → Bool
  | [] => false
  | (k, _) :: rest => k == u || keyMem u rest

/-- The dict invariant: every user id occurs at most once as a key. -/
def keysNodup : Sessions → Bool
  | [] => true
  | (k, _) :: rest => !keyMem k rest && keysNodup rest

/-- Number of session entries held by one user. -/
def keyCount (u : Nat) : Sessions → Nat
  | [] => 0
  | (k, _) :: rest => (if k = u then 1 else 0) + keyCount u rest

/-- `leaderboard_data[guild].get(user, 0)` with an absent guild reading as
the empty dict: the observable running total. -/
def lbGet0 (lb : Lb) (g u : Nat) : Int :=
  (((lb g).getD fun _ => none) u).getD 0

/-- Option-valued lookup: distinguishes a missing entry from a zero total. -/
def lbGet (lb : Lb) (g u : Nat) : Option Int :=
  (lb g).bind fun m => m u

/-- Game-leaderboard observable total. -/
def glbGet0 (glb : GLb) (g : Nat) (game : String) : Int :=
  (((glb g).getD fun _ => none) game).getD 0

/-- Option-valued game-leaderboard lookup. -/
def glbGet (glb : GLb) (g : Nat) (game : String) : Option Int :=
  (glb g).bind fun m => m game

/-- `update_leaderboard` (src/presence_bot.py, lines 119-128): drops
non-positive durations without touching or saving anything, otherwise adds the
duration to the user's total (creating the guild dict and the entry on first
credit) and saves the document.  The `Bool` is whether `save_data` ran. -/
def update_leaderboard (lb : Lb) (g u : Nat) (d : Int) : Lb × Bool :=
  if d ≤ 0 then (lb, false)
  else
    let gmap := (lb g).getD fun _ => none
    let cur := (gmap u).getD 0
    (fun x => if x = g then some (fun y => if y = u then some (cur + d) else gmap y) else lb x,
     true)

/-- `update_game_leaderboard` (src/presence_bot.py, lines 131-139): same
contract keyed by case-preserved game name. -/
def update_game_leaderboard (glb : GLb) (g : Nat) (game : String) (d : Int) : GLb × Bool :=
  if d ≤ 0 then (glb, false)
  else
    let gmap := (glb g).getD fun _ => none
    let cur := (gmap game).getD 0
    (fun x => if x = g then some (fun y => if y = game then some (cur + d) else gmap y) else glb x,
     true)

/-- `start_tracking_activity` (src/presence_bot.py, lines 163-182).
`presenceChannel` is the result of resolving the guild's `presence-update`
text channel at the moment of the call (`none` when no such channel exists).
Returns the new table, whether `save_data(PLAY_TIMES_FILE, ...)` ran, and
whether the session-start announcement was sent (`if channel:`). -/
def start_tracking_activity (st : Sessions) (u gid : Nat) (game : String)
    (presenceChannel : Option Nat) (now : Int) : Sessions × Bool × Bool :=
  if (slookup u st).isSome then (st, false, false)
  else
    ((u, { start_time := now, last_updated := now, game := game, milestones_hit := [],
           guild_id := gid, channel_id := presenceChannel }) :: st,
     true, presenceChannel.isSome)

/-- `stop_tracking_activity` (src/presence_bot.py, lines 185-202).  `gid` is
`member.guild.id` of the member the stop event is for.  Returns the new
session table and leaderboards, the Python return value
(`None, None` or `start_info, total_duration`), and whether the session table
was saved. -/
def stop_tracking_activity (st : Sessions) (lb : Lb) (glb : GLb) (u gid : Nat)
    (now : Int) : Sessions × Lb × GLb × Option (Session × Int) × Bool :=
  match slookup u st with
  | none => (st, lb, glb, none, false)
  | some info =>
    let st' := removeUser u st
    let d := now - info.last_updated
    let lb' := (update_leaderboard lb gid u d).1
    let glb' := (update_game_leaderboard glb gid info.game d).1
    (st', lb', glb', some (info, now - info.start_time), true)

/-- The game-switch branch of `on_presence_update` (src/presence_bot.py,
lines 263-265): `stop_tracking_activity` immediately followed by
`start_tracking_activity` for the new game.  The two calls each take
`datetime.now` separately, hence the two instants `now1 ≤ now2`. -/
def switch_games (st : Sessions) (lb : Lb) (glb : GLb) (u gid : Nat)
    (newGame : String) (presenceChannel : Option Nat) (now1 now2 : Int) :
    Sessions × Lb × GLb :=
  let s1 := stop_tracking_activity st lb glb u gid now1
  let s2 := start_tracking_activity s1.1 u gid newGame presenceChannel now2
  (s2.1, s1.2.1, s1.2.2.1)

/-- The external world as the bot observes it during one sweep. -/
structure Env where
  /-- `bot.get_guild(gid)` resolves. -/
  getGuild : Nat → Bool
  /-- `guild.get_member(uid)` resolves (guild id, user id). -/
  getMember : Nat → Nat → Bool
  /-- `guild.get_channel(cid)` resolves (guild id, channel id). -/
  getChannel : Nat → Nat → Bool
  /-- The milestone `channel.send` for (user id, threshold) succeeds; `false`
  is a raised `discord.HTTPException`. -/
  sendOk : Nat → Nat → Bool
  /-- The guild has a resolvable weekly announcement channel
  (`get_text_channel_by_name(guild, "general")`). -/
  announceChannel : Nat → Bool

/-- The body of the periodic-flush loop for one session
(src/presence_bot.py, lines 279-288): skip the session entirely if its guild
or member does not resolve; otherwise credit `now - last_updated` to both
leaderboards and advance the watermark. -/
def flush_one (env : Env) (now : Int) (u : Nat) (info : Session) (lb : Lb)
    (glb : GLb) : Session × Lb × GLb :=
  if env.getGuild info.guild_id then
    if env.getMember info.guild_id u then
      let d := now - info.last_updated
      ({ info with last_updated := now },
       (update_leaderboard lb info.guild_id u d).1,
       (update_game_leaderboard glb info.guild_id info.game d).1)
    else (info, lb, glb)
  else (info, lb, glb)

/-- The periodic-flush loop over `list(playing_start_times.items())`
(src/presence_bot.py, lines 278-288), in dict order. -/
def flush_sweep (env : Env) (now : Int) : Sessions → Lb → GLb → Sessions × Lb × GLb
  | [], lb, glb => ([], lb, glb)
  | (u, info) :: rest, lb, glb =>
    let r := flush_one env now u info lb glb
    let rec' := flush_sweep env now rest r.2.1 r.2.2
    ((u, r.1) :: rec'.1, rec'.2.1, rec'.2.2)

/-- `update_leaderboards_periodically` (src/presence_bot.py, lines 271-291):
early return on an empty table (no save), otherwise the sweep followed by one
`save_data` of the session table.  The `Bool` is whether the table was saved. -/
def update_leaderboards_periodically (env : Env) (now : Int) (st : Sessions)
    (lb : Lb) (glb : GLb) : Sessions × Lb × GLb × Bool :=
  match st with
  | [] => ([], lb, glb, false)
  | _ =>
    let r := flush_sweep env now st lb glb
    (r.1, r.2.1, r.2.2, true)

/-- The keys of `milestone_messages` in dict insertion order
(src/presence_bot.py, lines 91-97); the message texts are display-only. -/
def milestone_thresholds : List Nat := [60, 120, 180, 240, 300]

/-- One iteration of the inner threshold loop of `check_milestones`
(src/presence_bot.py, lines 301-313) for the session of user `u`: the
threshold must be reached and not yet hit; then guild, member and the stored
channel must all resolve (a `channel_id` of `None` never resolves); the
threshold is added to `milestones_hit` only when the send succeeds.  The log
accumulates the successful sends as (user id, threshold). -/
def milestone_step (env : Env) (now : Int) (u : Nat)
    (acc : Session × List (Nat × Nat)) (m : Nat) : Session × List (Nat × Nat) :=
  let info := acc.1
  let minutes := (now - info.start_time).fdiv 60
  if (m : Int) ≤ minutes ∧ m ∉ info.milestones_hit then
    if env.getGuild info.guild_id then
      if env.getMember info.guild_id u
          && (match info.channel_id with
              | none => false
              | some cid => env.getChannel info.guild_id cid) then
        if env.sendOk u m then
          ({ info with milestones_hit := m :: info.milestones_hit }, acc.2 ++ [(u, m)])
        else acc
      else acc
    else acc
  else acc

/-- The full threshold loop of `check_milestones` for one session. -/
def check_one (env : Env) (now : Int) (u : Nat) (info : Session) :
    Session × List (Nat × Nat) :=
  milestone_thresholds.foldl (milestone_step env now u) (info, [])

/-- The outer loop of `check_milestones` over
`list(playing_start_times.items())` (src/presence_bot.py, lines 298-313). -/
def check_sweep (env : Env) (now : Int) : Sessions → Sessions × List (Nat × Nat)
  | [] => ([], [])
  | (u, info) :: rest =>
    let r := check_one env now u info
    let rest' := check_sweep env now rest
    ((u, r.1) :: rest'.1, r.2 ++ rest'.2)

/-- `check_milestones` (src/presence_bot.py, lines 294-316): the sweep, then
one save of the session table if any session has a non-empty milestone set.
Returns table, log of successful sends, and the save flag. -/
def check_milestones (env : Env) (now : Int) (st : Sessions) :
    Sessions × List (Nat × Nat) × Bool :=
  let r := check_sweep env now st
  (r.1, r.2, r.1.any fun p => !p.2.milestones_hit.isEmpty)

/-- The body of the weekly-reset loop for one guild
(src/presence_bot.py, lines 330-402).  When the announcement channel does not
resolve, `continue` runs before anything else: the guild is skipped entirely,
including its reset.  Otherwise the summary send's `try/except` swallows any
failure without changing state, and the guild's two leaderboard dicts are
emptied when present. -/
def weekly_guild (env : Env) (g : Nat) (lb : Lb) (glb : GLb) : Lb × GLb :=
  if env.announceChannel g then
    ((if (lb g).isSome then fun x => if x = g then some fun _ => none else lb x else lb),
     (if (glb g).isSome then fun x => if x = g then some fun _ => none else glb x else glb))
  else (lb, glb)

/-- The weekly loop over `bot.guilds`. -/
def weekly_run (env : Env) : List Nat → Lb → GLb → Lb × GLb
  | [], lb, glb => (lb, glb)
  | g :: rest, lb, glb =>
    let r := weekly_guild env g lb glb
    weekly_run env rest r.1 r.2

/-- `weekly_reset_and_announce` (src/presence_bot.py, lines 319-406): no-op
unless the weekday is Monday (`0`); otherwise process every guild and save
both leaderboard documents once at the end.  The `Bool` is whether the two
documents were saved. -/
def weekly_reset_and_announce (env : Env) (weekday : Nat) (guilds : List Nat)
    (lb : Lb) (glb : GLb) : Lb × GLb × Bool :=
  if weekday ≠ 0 then (lb, glb, false)
  else
    let r := weekly_run env guilds lb glb
    (r.1, r.2, true)

/-- The `!reset` command `reset_stats` (src/presence_bot.py, lines 525-547):
denied without the boss role (no mutation, nothing saved); otherwise each of
the invoking guild's two leaderboard dicts is emptied and saved when it is
present.  Result: the two maps and the two per-document save flags. -/
def reset_stats (hasBossRole : Bool) (g : Nat) (lb : Lb) (glb : GLb) :
    Lb × GLb × Bool × Bool :=
  if hasBossRole then
    ((if (lb g).isSome then fun x => if x = g then some fun _ => none else lb x else lb),
     (if (glb g).isSome then fun x => if x = g then some fun _ => none else glb x else glb),
     (lb g).isSome, (glb g).isSome)
  else (lb, glb, false, false)

/-- The shape of one field of a raw JSON session entry: absent from the dict,
present but unusable (e.g. a string `datetime.fromisoformat` rejects), or
present with a usable value. -/
inductive JField (α : Type) where
  | missing
  | invalid
  | val (a : α)
deriving Repr, DecidableEq

/-- One raw entry of the decoded `play_times.json` document, before the
rebuild loop of src/presence_bot.py, lines 75-85, runs over it. -/
structure RawSession where
  raw_start_time : JField Int
  raw_last_updated : JField Int
  raw_game : JField String
  raw_milestones_hit : JField (List Nat)
  raw_guild_id : JField Nat
  raw_channel_id : JField (Option Nat)
deriving Repr, DecidableEq

/-- A persisted document as `load_data` sees it: the file may be absent, may
fail JSON decoding, or may decode to a dict of entries.  A key that is not a
decimal integer is recorded as `none` (it makes `int(user_id_str)` raise). -/
inductive RawDoc where
  | absent
  | undecodable
  | decoded (entries : List (Option Nat × RawSession))
deriving Repr, DecidableEq

/-- `load_data` (src/presence_bot.py, lines 34-40): a missing file
(`FileNotFoundError`) or an undecodable one (`json.JSONDecodeError`) both
yield the empty dict. -/
def load_data : RawDoc → List (Option Nat × RawSession)
  | .absent => []
  | .undecodable => []
  | .decoded entries => entries

/-- The per-entry body of the session rebuild loop
(src/presence_bot.py, lines 75-85).  `data["start_time"]`, `data["game"]`,
`data["guild_id"]` and `data["channel_id"]` are indexed directly, so a missing
or unusable value raises (`.error`); `last_updated` defaults to the start time
and `milestones_hit` to the empty set via `.get`. -/
def load_session_entry (r : RawSession) : Except String Session := do
  let st ← match r.raw_start_time with
    | .val t => .ok t
    | _ => .error "start_time"
  let lu ← match r.raw_last_updated with
    | .val t => .ok t
    | .missing => .ok st
    | .invalid => .error "last_updated"
  let game ← match r.raw_game with
    | .val s => .ok s
    | _ => .error "game"
  let hit ← match r.raw_milestones_hit with
    | .val l => .ok l
    | .missing => .ok []
    | .invalid => .error "milestones_hit"
  let gid ← match r.raw_guild_id with
    | .val n => .ok n
    | _ => .error "guild_id"
  let cid ← match r.raw_channel_id with
    | .val c => .ok c
    | _ => .error "channel_id"
  .ok { start_time := st, last_updated := lu, game := game, milestones_hit := hit,
        guild_id := gid, channel_id := cid }

/-- The whole startup rebuild of `playing_start_times`
(src/presence_bot.py, lines 72-85): `load_data` followed by the loop; any
raising entry aborts module initialisation, hence the process. -/
def load_play_times (doc : RawDoc) : Except String Sessions :=
  (load_data doc).foldr
    (fun e acc => do
      let rest ← acc
      let uid ← match e.1 with
        | some n => Except.ok n
        | none => Except.error "user_id"
      let s ← load_session_entry e.2
      Except.ok ((uid, s) :: rest))
    (Except.ok [])

/-- One start or stop call, as delivered by `on_presence_update`
(src/presence_bot.py, lines 256-262). -/
inductive UserOp where
  | ustart (u gid : Nat) (game : String) (presenceChannel : Option Nat) (now : Int)
  | ustop (u gid : Nat) (now : Int)

/-- Run a sequence of start/stop calls against the whole state. -/
def run_user_ops : List UserOp → Sessions × Lb × GLb → Sessions × Lb × GLb
  | [], s => s
  | .ustart u gid game ch now :: ops, (st, lb, glb) =>
    run_user_ops ops ((start_tracking_activity st u gid game ch now).1, lb, glb)
  | .ustop u gid now :: ops, (st, lb, glb) =>
    let r := stop_tracking_activity st lb glb u gid now
    run_user_ops ops (r.1, r.2.1, r.2.2.1)

/-- One run of a background sweep: the periodic flush or the milestone
check, each with the sweep's own clock reading and environment. -/
inductive SweepOp where
  | flushAll (env : Env) (now : Int)
  | sweepMilestones (env : Env) (now : Int)

/-- Run a sequence of background sweeps, accumulating the log of successful
milestone sends. -/
def run_sweeps : List SweepOp → Sessions × Lb × GLb →
    (Sessions × Lb × GLb) × List (Nat × Nat)
  | [], s => (s, [])
  | .flushAll env now :: ops, (st, lb, glb) =>
    let r := update_leaderboards_periodically env now st lb glb
    run_sweeps ops (r.1, r.2.1, r.2.2.1)
  | .sweepMilestones env now :: ops, (st, lb, glb) =>
    let r := check_milestones env now st
    let rest := run_sweeps ops (r.1, lb, glb)
    (rest.1, r.2.1 ++ rest.2)

/-- Number of (user, threshold) pairs equal to `x` in a send log. -/
def pairCount (x : Nat × Nat) : List (Nat × Nat) → Nat
  | [] => 0
  | y :: rest => (if y = x then 1 else 0) + pairCount x rest

/-- Concrete example states used by the witnesses below. -/
def lbEx : Lb :=
  fun g => if g = 1 then some fun u => if u = 5 then some 100 else none else none

def glbEx : GLb :=
  fun g => if g = 1 then some fun s => if s = "Chess" then some 50 else none else none

def sessEx : Session :=
  { start_time := 0, last_updated := 0, game := "Chess", milestones_hit := [],
    guild_id := 1, channel_id := some 9 }

/-! ### Basic lemmas about the session dict -/

theorem pairCount_append (x : Nat × Nat) (l1 l2 : List (Nat × Nat)) :
    pairCount x (l1 ++ l2) = pairCount x l1 + pairCount x l2 := by
  induction l1 with
  | nil => simp [pairCount]
  | cons y rest ih =>
    show (if y = x then 1 else 0) + pairCount x (rest ++ l2)
      = (if y = x then 1 else 0) + pairCount x rest + pairCount x l2
    rw [ih, Nat.add_assoc]

theorem pairCount_eq_zero {x : Nat × Nat} {l : List (Nat × Nat)} :
    pairCount x l = 0 ↔ x ∉ l := by
  induction l with
  | nil => simp [pairCount]
  | cons y rest ih =>
    by_cases h : y = x
    · subst h
      simp [pairCount]
    · simp [pairCount, h, ih, Ne.symm h]

theorem pairCount_pos_of_mem {x : Nat × Nat} {l : List (Nat × Nat)}
    (h : x ∈ l) : 1 ≤ pairCount x l := by
  rcases Nat.eq_zero_or_pos (pairCount x l) with h0 | h1
  · exact absurd h (pairCount_eq_zero.mp h0)
  · exact h1

theorem slookup_none_iff_keyMem {u : Nat} : ∀ {st : Sessions},
    slookup u st = none ↔ keyMem u st = false := by
  intro st
  induction st with
  | nil => simp [slookup, keyMem]
  | cons p rest ih =>
    obtain ⟨k, s⟩ := p
    by_cases h : k = u <;> simp [slookup, keyMem, h, ih]

theorem keyCount_zero_of_not_mem {u : Nat} : ∀ {st : Sessions},
    keyMem u st = false → keyCount u st = 0 := by
  intro st
  induction st with
  | nil => intro; rfl
  | cons p rest ih =>
    intro h
    simp only [keyMem, Bool.or_eq_false_iff] at h
    have hk : p.1 ≠ u := by
      intro he; simp [he] at h
    simp [keyCount, hk, ih h.2]

theorem keyCount_le_one_of_nodup {u : Nat} : ∀ {st : Sessions},
    keysNodup st = true → keyCount u st ≤ 1 := by
  intro st
  induction st with
  | nil => intro; simp [keyCount]
  | cons p rest ih =>
    intro h
    simp only [keysNodup, Bool.and_eq_true, Bool.not_eq_true'] at h
    by_cases hk : p.1 = u
    · subst hk
      simp [keyCount, keyCount_zero_of_not_mem h.1]
    · simp [keyCount, hk]
      exact ih h.2

theorem keyMem_removeUser_le {x u : Nat} : ∀ {st : Sessions},
    keyMem x (removeUser u st) = true → keyMem x st = true := by
  intro st
  induction st with
  | nil => simp [removeUser]
  | cons p rest ih =>
    obtain ⟨k, s⟩ := p
    by_cases h : k = u
    · intro hm
      simp only [removeUser, if_pos h] at hm
      simp [keyMem, ih hm]
    · intro hm
      simp only [removeUser, if_neg h] at hm
      simp only [keyMem, Bool.or_eq_true] at hm ⊢
      rcases hm with hm | hm
      · exact Or.inl hm
      · exact Or.inr (ih hm)

theorem keysNodup_removeUser {u : Nat} : ∀ {st : Sessions},
    keysNodup st = true → keysNodup (removeUser u st) = true := by
  intro st
  induction st with
  | nil => intro; rfl
  | cons p rest ih =>
    obtain ⟨k, s⟩ := p
    intro h
    simp only [keysNodup, Bool.and_eq_true, Bool.not_eq_true'] at h
    by_cases hk : k = u
    · simp only [removeUser, if_pos hk]
      exact ih h.2
    · simp only [removeUser, if_neg hk, keysNodup, Bool.and_eq_true, Bool.not_eq_true']
      refine ⟨?_, ih h.2⟩
      cases hm : keyMem k (removeUser u rest)
      · rfl
      · exact absurd (keyMem_removeUser_le hm) (by simp [h.1])

theorem slookup_removeUser_self (u : Nat) : ∀ st : Sessions,
    slookup u (removeUser u st) = none := by
  intro st
  induction st with
  | nil => rfl
  | cons p rest ih =>
    obtain ⟨k, s⟩ := p
    by_cases h : k = u
    · simp [removeUser, h, ih]
    · simp [removeUser, slookup, h, ih]

/-! ### Lemmas about the two credit functions -/

theorem update_leaderboard_nonpos (lb : Lb) (g u : Nat) {d : Int} (hd : d ≤ 0) :
    update_leaderboard lb g u d = (lb, false) := by
  simp [update_leaderboard, hd]

theorem update_game_leaderboard_nonpos (glb : GLb) (g : Nat) (game : String)
    {d : Int} (hd : d ≤ 0) : update_game_leaderboard glb g game d = (glb, false) := by
  simp [update_game_leaderboard, hd]

theorem update_leaderboard_pos_get (lb : Lb) (g u : Nat) {e : Int} (he : 0 < e) :
    lbGet (update_leaderboard lb g u e).1 g u = some (lbGet0 lb g u + e) := by
  simp [update_leaderboard, lbGet, lbGet0, not_le.2 he]

theorem update_leaderboard_get0 (lb : Lb) (g u : Nat) (d : Int) :
    lbGet0 (update_leaderboard lb g u d).1 g u = lbGet0 lb g u + max d 0 := by
  by_cases hd : d ≤ 0
  · simp [update_leaderboard, hd, max_eq_right hd]
  · have he : 0 < d := not_le.1 hd
    simp [update_leaderboard, hd, lbGet0, max_eq_left he.le]

theorem update_game_leaderboard_get0 (glb : GLb) (g : Nat) (game : String) (d : Int) :
    glbGet0 (update_game_leaderboard glb g game d).1 g game
      = glbGet0 glb g game + max d 0 := by
  by_cases hd : d ≤ 0
  · simp [update_game_leaderboard, hd, max_eq_right hd]
  · have he : 0 < d := not_le.1 hd
    simp [update_game_leaderboard, hd, glbGet0, max_eq_left he.le]

theorem update_leaderboard_frame (lb : Lb) (g u g' u' : Nat) (d : Int)
    (h : g' ≠ g ∨ u' ≠ u) :
    lbGet (update_leaderboard lb g u d).1 g' u' = lbGet lb g' u' := by
  by_cases hd : d ≤ 0
  · simp [update_leaderboard, hd]
  · by_cases hg : g' = g
    · subst hg
      have hu : u' ≠ u := h.resolve_left (by simp)
      cases hlb : lb g' <;> simp [update_leaderboard, hd, lbGet, hu, hlb]
    · simp [update_leaderboard, hd, lbGet, hg]

theorem update_game_leaderboard_frame (glb : GLb) (g g' : Nat) (game game' : String)
    (d : Int) (h : g' ≠ g ∨ game' ≠ game) :
    glbGet (update_game_leaderboard glb g game d).1 g' game' = glbGet glb g' game' := by
  by_cases hd : d ≤ 0
  · simp [update_game_leaderboard, hd]
  · by_cases hg : g' = g
    · subst hg
      have hu : game' ≠ game := h.resolve_left (by simp)
      cases hlb : glb g' <;> simp [update_game_leaderboard, hd, glbGet, hu, hlb]
    · simp [update_game_leaderboard, hd, glbGet, hg]

theorem update_leaderboard_frame0 (lb : Lb) (g u g' u' : Nat) (d : Int)
    (h : g' ≠ g ∨ u' ≠ u) :
    lbGet0 (update_leaderboard lb g u d).1 g' u' = lbGet0 lb g' u' := by
  by_cases hd : d ≤ 0
  · simp [update_leaderboard, hd]
  · by_cases hg : g' = g
    · subst hg
      have hu : u' ≠ u := h.resolve_left (by simp)
      cases hlb : lb g' <;> simp [update_leaderboard, hd, lbGet0, hu, hlb]
    · simp [update_leaderboard, hd, lbGet0, hg]

theorem update_game_leaderboard_frame0 (glb : GLb) (g g' : Nat) (game game' : String)
    (d : Int) (h : g' ≠ g ∨ game' ≠ game) :
    glbGet0 (update_game_leaderboard glb g game d).1 g' game'
      = glbGet0 glb g' game' := by
  by_cases hd : d ≤ 0
  · simp [update_game_leaderboard, hd]
  · by_cases hg : g' = g
    · subst hg
      have hu : game' ≠ game := h.resolve_left (by simp)
      cases hlb : glb g' <;> simp [update_game_leaderboard, hd, glbGet0, hu, hlb]
    · simp [update_game_leaderboard, hd, glbGet0, hg]

theorem update_game_leaderboard_pos_get (glb : GLb) (g : Nat) (game : String)
    {e : Int} (he : 0 < e) :
    glbGet (update_game_leaderboard glb g game e).1 g game
      = some (glbGet0 glb g game + e) := by
  simp [update_game_leaderboard, glbGet, glbGet0, not_le.2 he]

/-- C6: `credit`/`creditGame` with a non-positive duration leave the maps
unchanged and persist nothing; with a positive duration they persist and add
exactly the duration to the one targeted entry (creating it on first credit),
leaving every other entry unchanged. -/
theorem claim_C6_credit_clamp (lb : Lb) (glb : GLb) (g u g' u' : Nat)
    (game game' : String) (d e : Int) (hd : d ≤ 0) (he : 0 < e)
    (hu : g' ≠ g ∨ u' ≠ u) (hg : g' ≠ g ∨ game' ≠ game) :
    update_leaderboard lb g u d = (lb, false) ∧
    update_game_leaderboard glb g game d = (glb, false) ∧
    (update_leaderboard lb g u e).2 = true ∧
    lbGet (update_leaderboard lb g u e).1 g u = some (lbGet0 lb g u + e) ∧
    (update_game_leaderboard glb g game e).2 = true ∧
    glbGet (update_game_leaderboard glb g game e).1 g game
      = some (glbGet0 glb g game + e) ∧
    lbGet (update_leaderboard lb g u e).1 g' u' = lbGet lb g' u' ∧
    glbGet (update_game_leaderboard glb g game e).1 g' game' = glbGet glb g' game' := by
  refine ⟨update_leaderboard_nonpos lb g u hd,
    update_game_leaderboard_nonpos glb g game hd, ?_,
    update_leaderboard_pos_get lb g u he, ?_,
    update_game_leaderboard_pos_get glb g game he,
    update_leaderboard_frame lb g u g' u' e hu,
    update_game_leaderboard_frame glb g g' game game' e hg⟩
  · simp [update_leaderboard, not_le.2 he]
  · simp [update_game_leaderboard, not_le.2 he]

theorem claim_C6_credit_clamp_witness :
    (-3 : Int) ≤ 0 ∧ (0 : Int) < 7 ∧ ((1 : Nat) ≠ 1 ∨ (6 : Nat) ≠ 5) ∧
    update_leaderboard lbEx 1 5 (-3) = (lbEx, false) ∧
    update_game_leaderboard glbEx 1 "Chess" (-3) = (glbEx, false) ∧
    lbGet (update_leaderboard lbEx 1 5 7).1 1 5 = some 107 ∧
    glbGet (update_game_leaderboard glbEx 1 "Chess" 7).1 1 "Chess" = some 57 ∧
    lbGet (update_leaderboard lbEx 1 5 7).1 1 6 = none := by
  have h := claim_C6_credit_clamp lbEx glbEx 1 5 1 6 "Chess" "Go" (-3) 7
    (by decide) (by decide) (by decide) (by decide)
  refine ⟨by decide, by decide, by decide, h.1, h.2.1, ?_, ?_, ?_⟩
  · rw [h.2.2.2.1]; decide
  · rw [h.2.2.2.2.2.1]; decide
  · rw [h.2.2.2.2.2.2.1]; decide

/-- C7: `stop_tracking_activity` for a user with no active session returns
the Python `None, None`, mutates no state and saves nothing. -/
theorem claim_C7_stop_noop (st : Sessions) (lb : Lb) (glb : GLb) (u gid : Nat)
    (now : Int) (h : slookup u st = none) :
    stop_tracking_activity st lb glb u gid now = (st, lb, glb, none, false) := by
  simp [stop_tracking_activity, h]

theorem claim_C7_stop_noop_witness :
    slookup 7 [(3, sessEx)] = none ∧
    stop_tracking_activity [(3, sessEx)] lbEx glbEx 7 1 500
      = ([(3, sessEx)], lbEx, glbEx, none, false) :=
  ⟨by decide, claim_C7_stop_noop [(3, sessEx)] lbEx glbEx 7 1 500 (by decide)⟩

/-- C8: the authorized `!reset` command empties exactly the invoking guild's
user and game leaderboards (every lookup in them is gone afterwards) and
leaves every other guild's submaps untouched. -/
theorem claim_C8_reset_frame (lb : Lb) (glb : GLb) (g g' u : Nat) (game : String)
    (hg : g' ≠ g) :
    lbGet (reset_stats true g lb glb).1 g u = none ∧
    glbGet ((reset_stats true g lb glb).2.1) g game = none ∧
    (reset_stats true g lb glb).1 g' = lb g' ∧
    (reset_stats true g lb glb).2.1 g' = glb g' := by
  refine ⟨?_, ?_, ?_, ?_⟩
  · cases hlb : lb g <;> simp [reset_stats, lbGet, hlb]
  · cases hlb : glb g <;> simp [reset_stats, glbGet, hlb]
  · cases hlb : lb g <;> simp [reset_stats, hlb, hg]
  · cases hlb : glb g <;> simp [reset_stats, hlb, hg]

theorem claim_C8_reset_frame_witness :
    (2 : Nat) ≠ 1 ∧
    lbGet (reset_stats true 1 lbEx glbEx).1 1 5 = none ∧
    glbGet ((reset_stats true 1 lbEx glbEx).2.1) 1 "Chess" = none ∧
    (reset_stats true 1 lbEx glbEx).1 2 = lbEx 2 ∧
    (reset_stats true 1 lbEx glbEx).2.1 2 = glbEx 2 := by
  have h := claim_C8_reset_frame lbEx glbEx 1 2 5 "Chess" (by decide)
  exact ⟨by decide, h.1, h.2.1, h.2.2.1, h.2.2.2⟩

/-- A raw session entry whose dict is valid JSON but lacks the `start_time`
key, so `data["start_time"]` raises `KeyError` during the startup rebuild. -/
def badRawSession : RawSession :=
  { raw_start_time := .missing, raw_last_updated := .missing, raw_game := .val "Chess",
    raw_milestones_hit := .missing, raw_guild_id := .val 1, raw_channel_id := .val none }

/-- C9 counterexample: a persisted sessions document that decodes to a dict
whose entry is missing its `start_time` field is malformed, yet the startup
rebuild raises instead of yielding the empty state, so the claim as stated is
false at this input. -/
theorem claim_C9_counterexample :
    load_play_times (.decoded [(some 123, badRawSession)]) = .error "start_time" := by
  rfl

/-- C9 amended: a persisted document that is missing or fails JSON decoding
is treated as the empty state and startup proceeds; a decodable sessions
entry with all required fields loads, with `last_updated` defaulting to the
start time and `milestones_hit` to empty.  (Shape-malformed but decodable
sessions entries still abort startup, per the counterexample.) -/
theorem claim_C9_cold_start :
    load_data .absent = [] ∧ load_data .undecodable = [] ∧
    load_play_times .absent = .ok [] ∧ load_play_times .undecodable = .ok [] ∧
    load_play_times (.decoded [(some 123,
      { raw_start_time := .val 50, raw_last_updated := .missing,
        raw_game := .val "Chess", raw_milestones_hit := .missing,
        raw_guild_id := .val 1, raw_channel_id := .val (some 9) })])
      = .ok [(123, { start_time := 50, last_updated := 50, game := "Chess",
                     milestones_hit := [], guild_id := 1, channel_id := some 9 })] :=
  ⟨rfl, rfl, rfl, rfl, rfl⟩

/-! ### Weekly reset job (C2) -/

theorem weekly_guild_other (env : Env) (g g'' : Nat) (lb : Lb) (glb : GLb)
    (h : g ≠ g'') :
    (weekly_guild env g'' lb glb).1 g = lb g ∧
    (weekly_guild env g'' lb glb).2 g = glb g := by
  cases hch : env.announceChannel g''
  · simp [weekly_guild, hch]
  · constructor
    · cases hlb : (lb g'').isSome <;> simp [weekly_guild, hch, hlb, h]
    · cases hlb : (glb g'').isSome <;> simp [weekly_guild, hch, hlb, h]

theorem weekly_guild_reset (env : Env) (g : Nat) (lb : Lb) (glb : GLb)
    (hch : env.announceChannel g = true) :
    (∀ u, lbGet (weekly_guild env g lb glb).1 g u = none) ∧
    (∀ game, glbGet (weekly_guild env g lb glb).2 g game = none) := by
  constructor
  · intro u
    cases hlb : lb g <;> simp [weekly_guild, hch, hlb, lbGet]
  · intro game
    cases hlb : glb g <;> simp [weekly_guild, hch, hlb, glbGet]

theorem weekly_guild_keeps_reset (env : Env) (g g'' : Nat) (lb : Lb) (glb : GLb)
    (h1 : ∀ u, lbGet lb g u = none) (h2 : ∀ game, glbGet glb g game = none) :
    (∀ u, lbGet (weekly_guild env g'' lb glb).1 g u = none) ∧
    (∀ game, glbGet (weekly_guild env g'' lb glb).2 g game = none) := by
  by_cases hg : g = g''
  · subst hg
    cases hch : env.announceChannel g
    · simpa [weekly_guild, hch] using ⟨h1, h2⟩
    · exact weekly_guild_reset env g lb glb hch
  · have ho := weekly_guild_other env g g'' lb glb hg
    constructor
    · intro u; rw [lbGet, ho.1, ← lbGet]; exact h1 u
    · intro game; rw [glbGet, ho.2, ← glbGet]; exact h2 game

theorem weekly_run_skip (env : Env) (g : Nat) (hch : env.announceChannel g = false) :
    ∀ (guilds : List Nat) (lb : Lb) (glb : GLb),
    (weekly_run env guilds lb glb).1 g = lb g ∧
    (weekly_run env guilds lb glb).2 g = glb g := by
  intro guilds
  induction guilds with
  | nil => intro lb glb; exact ⟨rfl, rfl⟩
  | cons g'' rest ih =>
    intro lb glb
    by_cases hg : g = g''
    · subst hg
      simp only [weekly_run, weekly_guild, hch]
      exact ih lb glb
    · have ho := weekly_guild_other env g g'' lb glb hg
      have := ih (weekly_guild env g'' lb glb).1 (weekly_guild env g'' lb glb).2
      exact ⟨this.1.trans ho.1, this.2.trans ho.2⟩

theorem weekly_run_keeps_reset (env : Env) (g : Nat) :
    ∀ (guilds : List Nat) (lb : Lb) (glb : GLb),
    (∀ u, lbGet lb g u = none) → (∀ game, glbGet glb g game = none) →
    (∀ u, lbGet (weekly_run env guilds lb glb).1 g u = none) ∧
    (∀ game, glbGet (weekly_run env guilds lb glb).2 g game = none) := by
  intro guilds
  induction guilds with
  | nil => intro lb glb h1 h2; exact ⟨h1, h2⟩
  | cons g'' rest ih =>
    intro lb glb h1 h2
    have hk := weekly_guild_keeps_reset env g g'' lb glb h1 h2
    exact ih _ _ hk.1 hk.2

theorem weekly_run_reset (env : Env) (g : Nat) (hch : env.announceChannel g = true) :
    ∀ (guilds : List Nat) (lb : Lb) (glb : GLb), g ∈ guilds →
    (∀ u, lbGet (weekly_run env guilds lb glb).1 g u = none) ∧
    (∀ game, glbGet (weekly_run env guilds lb glb).2 g game = none) := by
  intro guilds
  induction guilds with
  | nil => intro lb glb h; cases h
  | cons g'' rest ih =>
    intro lb glb hmem
    rcases List.mem_cons.mp hmem with hg | hg
    · subst hg
      have hr := weekly_guild_reset env g lb glb hch
      exact weekly_run_keeps_reset env g rest _ _ hr.1 hr.2
    · exact ih _ _ hg

/-- Environment and states for the C2 counterexample: guild 1 has no
resolvable weekly announcement channel, guild 2 does. -/
def envC2 : Env :=
  { getGuild := fun _ => true, getMember := fun _ _ => true,
    getChannel := fun _ _ => true, sendOk := fun _ _ => true,
    announceChannel := fun g => g == 2 }

def lbC2 : Lb := fun g =>
  if g = 1 then some fun u => if u = 5 then some 100 else none
  else if g = 2 then some fun u => if u = 6 then some 200 else none
  else none

def glbC2 : GLb := fun g =>
  if g = 1 then some fun s => if s = "Chess" then some 50 else none
  else if g = 2 then some fun s => if s = "Go" then some 70 else none
  else none

/-- C2 counterexample: on the reset day, guild 1 has totals but no resolvable
announcement channel.  The weekly job's `continue` runs before the reset, so
guild 1 keeps its old totals instead of being reset to empty, contradicting
the claim; guild 2 (whose channel resolves) is announced and reset. -/
theorem claim_C2_counterexample :
    lbGet (weekly_reset_and_announce envC2 0 [1, 2] lbC2 glbC2).1 1 5 = some 100 ∧
    glbGet (weekly_reset_and_announce envC2 0 [1, 2] lbC2 glbC2).2.1 1 "Chess"
      = some 50 ∧
    lbGet (weekly_reset_and_announce envC2 0 [1, 2] lbC2 glbC2).1 2 6 = none ∧
    glbGet (weekly_reset_and_announce envC2 0 [1, 2] lbC2 glbC2).2.1 2 "Go" = none :=
  ⟨rfl, rfl, rfl, rfl⟩

/-- C2 amended: on the reset day, a guild whose announcement channel cannot
be resolved is skipped entirely — its summary is not sent and its user and
game leaderboards are left exactly as they were (not reset) — while every
guild whose channel resolves is still processed: its leaderboards end up
empty regardless of how other guilds fared. -/
theorem claim_C2_weekly_skip (env : Env) (guilds : List Nat) (g : Nat)
    (lb : Lb) (glb : GLb) (hmem : g ∈ guilds) :
    (env.announceChannel g = false →
      (weekly_reset_and_announce env 0 guilds lb glb).1 g = lb g ∧
      (weekly_reset_and_announce env 0 guilds lb glb).2.1 g = glb g) ∧
    (env.announceChannel g = true →
      (∀ u, lbGet (weekly_reset_and_announce env 0 guilds lb glb).1 g u = none) ∧
      (∀ game, glbGet (weekly_reset_and_announce env 0 guilds lb glb).2.1 g game
        = none)) := by
  constructor
  · intro hch
    have := weekly_run_skip env g hch guilds lb glb
    simpa [weekly_reset_and_announce] using this
  · intro hch
    have := weekly_run_reset env g hch guilds lb glb hmem
    simpa [weekly_reset_and_announce] using this

theorem claim_C2_weekly_skip_witness :
    (1 ∈ [1, 2]) ∧ envC2.announceChannel 1 = false ∧
    (weekly_reset_and_announce envC2 0 [1, 2] lbC2 glbC2).1 1 = lbC2 1 ∧
    (weekly_reset_and_announce envC2 0 [1, 2] lbC2 glbC2).2.1 1 = glbC2 1 := by
  have h := claim_C2_weekly_skip envC2 [1, 2] 1 lbC2 glbC2 (by decide)
  exact ⟨by decide, rfl, (h.1 rfl).1, (h.1 rfl).2⟩

/-- C5: the switch branch stops the old session — crediting exactly the
unsettled `now - last_updated` of game A to the user's total and A's game
total — and immediately starts a fresh session for B with start and watermark
at the start call's clock reading, an empty milestone set, and the freshly
resolved presence channel. -/
theorem claim_C5_switch (st : Sessions) (lb : Lb) (glb : GLb) (u gid : Nat)
    (info : Session) (newGame : String) (ch : Option Nat) (now1 now2 : Int)
    (hs : slookup u st = some info) (hle : info.last_updated ≤ now1) :
    slookup u (switch_games st lb glb u gid newGame ch now1 now2).1
      = some { start_time := now2, last_updated := now2, game := newGame,
               milestones_hit := [], guild_id := gid, channel_id := ch } ∧
    lbGet0 (switch_games st lb glb u gid newGame ch now1 now2).2.1 gid u
      = lbGet0 lb gid u + (now1 - info.last_updated) ∧
    glbGet0 (switch_games st lb glb u gid newGame ch now1 now2).2.2 gid info.game
      = glbGet0 glb gid info.game + (now1 - info.last_updated) := by
  have h0 : slookup u (removeUser u st) = none := slookup_removeUser_self u st
  have hmax : max (now1 - info.last_updated) 0 = now1 - info.last_updated :=
    max_eq_left (by omega)
  refine ⟨?_, ?_, ?_⟩
  · simp [switch_games, stop_tracking_activity, hs, start_tracking_activity, h0, slookup]
  · simp only [switch_games, stop_tracking_activity, hs]
    rw [update_leaderboard_get0, hmax]
  · simp only [switch_games, stop_tracking_activity, hs]
    rw [update_game_leaderboard_get0, hmax]

theorem claim_C5_switch_witness :
    slookup 5 [(5, sessEx)] = some sessEx ∧ sessEx.last_updated ≤ 10 ∧
    slookup 5 (switch_games [(5, sessEx)] lbEx glbEx 5 1 "Go" (some 9) 10 11).1
      = some { start_time := 11, last_updated := 11, game := "Go",
               milestones_hit := [], guild_id := 1, channel_id := some 9 } ∧
    lbGet0 (switch_games [(5, sessEx)] lbEx glbEx 5 1 "Go" (some 9) 10 11).2.1 1 5
      = 110 ∧
    glbGet0 (switch_games [(5, sessEx)] lbEx glbEx 5 1 "Go" (some 9) 10 11).2.2 1
      sessEx.game = 60 := by
  have h := claim_C5_switch [(5, sessEx)] lbEx glbEx 5 1 sessEx "Go" (some 9) 10 11
    (by decide) (by decide)
  refine ⟨by decide, by decide, h.1, ?_, ?_⟩
  · rw [h.2.1]; decide
  · rw [h.2.2]; decide

/-! ### Session-lifecycle invariant (C3) -/

theorem keysNodup_start (st : Sessions) (u gid : Nat) (game : String)
    (ch : Option Nat) (now : Int) (h : keysNodup st = true) :
    keysNodup (start_tracking_activity st u gid game ch now).1 = true := by
  cases hx : slookup u st with
  | some s => simp [start_tracking_activity, hx, h]
  | none =>
    have hm : keyMem u st = false := slookup_none_iff_keyMem.mp hx
    simp [start_tracking_activity, hx, keysNodup, hm, h]

theorem keysNodup_stop (st : Sessions) (lb : Lb) (glb : GLb) (u gid : Nat)
    (now : Int) (h : keysNodup st = true) :
    keysNodup (stop_tracking_activity st lb glb u gid now).1 = true := by
  cases hx : slookup u st with
  | none => simp [stop_tracking_activity, hx, h]
  | some s =>
    simp only [stop_tracking_activity, hx]
    exact keysNodup_removeUser h

theorem nodup_run_user_ops : ∀ (ops : List UserOp) (st : Sessions) (lb : Lb)
    (glb : GLb), keysNodup st = true →
    keysNodup (run_user_ops ops (st, lb, glb)).1 = true := by
  intro ops
  induction ops with
  | nil => intro st lb glb h; exact h
  | cons op rest ih =>
    intro st lb glb h
    cases op with
    | ustart u gid game ch now =>
      exact ih _ _ _ (keysNodup_start st u gid game ch now h)
    | ustop u gid now =>
      exact ih _ _ _ (keysNodup_stop st lb glb u gid now h)

/-- C3: starting from a duplicate-free session table, after any sequence of
start/stop calls every user holds at most one session entry (every instant of
a run is the result of some prefix of calls, so the bound holds at each
instant); and `start_tracking_activity` for a user with an existing session
returns the table unchanged, saves nothing and announces nothing. -/
theorem claim_C3_at_most_one (ops : List UserOp) (st st2 : Sessions) (lb : Lb)
    (glb : GLb) (u u2 gid : Nat) (game : String) (ch : Option Nat) (now : Int)
    (info : Session) (h : keysNodup st = true) (h2 : slookup u2 st2 = some info) :
    keyCount u (run_user_ops ops (st, lb, glb)).1 ≤ 1 ∧
    start_tracking_activity st2 u2 gid game ch now = (st2, false, false) := by
  refine ⟨keyCount_le_one_of_nodup (nodup_run_user_ops ops st lb glb h), ?_⟩
  simp [start_tracking_activity, h2]

theorem claim_C3_at_most_one_witness :
    keysNodup [] = true ∧ slookup 5 [(5, sessEx)] = some sessEx ∧
    keyCount 5 (run_user_ops
      [.ustart 5 1 "Chess" (some 9) 0, .ustart 5 1 "Go" none 50, .ustop 5 1 100,
       .ustop 5 1 120, .ustart 5 1 "Go" none 130]
      ([], lbEx, glbEx)).1 ≤ 1 ∧
    start_tracking_activity [(5, sessEx)] 5 1 "Go" none 7
      = ([(5, sessEx)], false, false) := by
  have h := claim_C3_at_most_one
    [.ustart 5 1 "Chess" (some 9) 0, .ustart 5 1 "Go" none 50, .ustop 5 1 100,
     .ustop 5 1 120, .ustart 5 1 "Go" none 130]
    [] [(5, sessEx)] lbEx glbEx 5 5 1 "Go" none 7 sessEx rfl (by decide)
  exact ⟨rfl, by decide, h.1, h.2⟩

/-! ### Periodic flush (C1) -/

/-- The session component of `flush_one`: the watermark advances exactly when
the session's guild and member both resolve. -/
def flushSession (env : Env) (now : Int) (u : Nat) (info : Session) : Session :=
  if env.getGuild info.guild_id then
    if env.getMember info.guild_id u then { info with last_updated := now }
    else info
  else info

theorem flush_one_session (env : Env) (now : Int) (u : Nat) (info : Session)
    (lb : Lb) (glb : GLb) :
    (flush_one env now u info lb glb).1 = flushSession env now u info := by
  unfold flush_one flushSession
  cases hg : env.getGuild info.guild_id
  · simp
  · cases hm : env.getMember info.guild_id u <;> simp

theorem flushSession_fields (env : Env) (now : Int) (u : Nat) (info : Session) :
    (flushSession env now u info).guild_id = info.guild_id ∧
    (flushSession env now u info).game = info.game ∧
    (flushSession env now u info).channel_id = info.channel_id ∧
    (flushSession env now u info).milestones_hit = info.milestones_hit ∧
    (flushSession env now u info).start_time = info.start_time := by
  unfold flushSession
  cases hg : env.getGuild info.guild_id
  · simp
  · cases hm : env.getMember info.guild_id u <;> simp

theorem flushSession_resolved (env : Env) (now : Int) (u : Nat) (info : Session)
    (hg : env.getGuild info.guild_id = true)
    (hm : env.getMember info.guild_id u = true) :
    flushSession env now u info = { info with last_updated := now } := by
  simp [flushSession, hg, hm]

/-- Rebuilding a dict in the same key order with per-entry updated values, as
both background sweeps do. -/
def mapVals (f : Nat → Session → Session) : Sessions → Sessions
  | [] => []
  | (k, s) :: rest => (k, f k s) :: mapVals f rest

theorem keyMem_mapVals (f : Nat → Session → Session) (x : Nat) :
    ∀ st : Sessions, keyMem x (mapVals f st) = keyMem x st := by
  intro st
  induction st with
  | nil => rfl
  | cons p rest ih =>
    obtain ⟨k, s⟩ := p
    simp [mapVals, keyMem, ih]

theorem keysNodup_mapVals (f : Nat → Session → Session) :
    ∀ st : Sessions, keysNodup (mapVals f st) = keysNodup st := by
  intro st
  induction st with
  | nil => rfl
  | cons p rest ih =>
    obtain ⟨k, s⟩ := p
    simp [mapVals, keysNodup, keyMem_mapVals, ih]

theorem slookup_mapVals (f : Nat → Session → Session) (x : Nat) :
    ∀ st : Sessions, slookup x (mapVals f st) = (slookup x st).map (f x) := by
  intro st
  induction st with
  | nil => rfl
  | cons p rest ih =>
    obtain ⟨k, s⟩ := p
    by_cases hk : k = x
    · subst hk
      simp [mapVals, slookup]
    · simp [mapVals, slookup, hk, ih]

theorem mem_mapVals (f : Nat → Session → Session) :
    ∀ (st : Sessions) (p : Nat × Session), p ∈ mapVals f st →
      ∃ q, q ∈ st ∧ p = (q.1, f q.1 q.2) := by
  intro st
  induction st with
  | nil => intro p hp; cases hp
  | cons q rest ih =>
    obtain ⟨k, s⟩ := q
    intro p hp
    rcases List.mem_cons.mp hp with hp | hp
    · exact ⟨(k, s), List.mem_cons_self _ _, hp⟩
    · obtain ⟨q', hq', he⟩ := ih p hp
      exact ⟨q', List.mem_cons_of_mem _ hq', he⟩

theorem keyMem_false_forall {x : Nat} : ∀ {st : Sessions},
    keyMem x st = false → ∀ p ∈ st, p.1 ≠ x := by
  intro st
  induction st with
  | nil => intro _ p hp; cases hp
  | cons q rest ih =>
    intro h p hp
    simp only [keyMem, Bool.or_eq_false_iff, beq_eq_false_iff_ne] at h
    rcases List.mem_cons.mp hp with hp | hp
    · subst hp; exact h.1
    · exact ih h.2 p hp

theorem flush_sweep_sessions (env : Env) (now : Int) :
    ∀ (st : Sessions) (lb : Lb) (glb : GLb),
    (flush_sweep env now st lb glb).1 = mapVals (flushSession env now) st := by
  intro st
  induction st with
  | nil => intro lb glb; rfl
  | cons p rest ih =>
    intro lb glb
    obtain ⟨u, info⟩ := p
    simp only [flush_sweep, mapVals, flush_one_session]
    rw [ih]

theorem flush_one_lb_frame (env : Env) (now : Int) (u : Nat) (info : Session)
    (lb : Lb) (glb : GLb) (g x : Nat) (hx : x ≠ u) :
    lbGet0 (flush_one env now u info lb glb).2.1 g x = lbGet0 lb g x := by
  unfold flush_one
  cases hg : env.getGuild info.guild_id
  · simp
  · cases hm : env.getMember info.guild_id u
    · simp
    · simp only [if_true]
      exact update_leaderboard_frame0 lb info.guild_id u g x _ (Or.inr hx)

theorem flush_one_lb_self (env : Env) (now : Int) (u : Nat) (info : Session)
    (lb : Lb) (glb : GLb) (hg : env.getGuild info.guild_id = true)
    (hm : env.getMember info.guild_id u = true) :
    lbGet0 (flush_one env now u info lb glb).2.1 info.guild_id u
      = lbGet0 lb info.guild_id u + max (now - info.last_updated) 0 := by
  simp only [flush_one, hg, hm, if_true]
  exact update_leaderboard_get0 lb info.guild_id u _

theorem flush_one_glb_frame (env : Env) (now : Int) (u : Nat) (info : Session)
    (lb : Lb) (glb : GLb) (g : Nat) (game : String)
    (hx : ¬(info.guild_id = g ∧ info.game = game)) :
    glbGet0 (flush_one env now u info lb glb).2.2 g game = glbGet0 glb g game := by
  unfold flush_one
  cases hg : env.getGuild info.guild_id
  · simp
  · cases hm : env.getMember info.guild_id u
    · simp
    · simp only [if_true]
      refine update_game_leaderboard_frame0 glb info.guild_id g info.game game _ ?_
      by_cases h1 : g = info.guild_id
      · subst h1
        exact Or.inr fun h2 => hx ⟨rfl, h2.symm⟩
      · exact Or.inl h1

theorem flush_one_glb_self (env : Env) (now : Int) (u : Nat) (info : Session)
    (lb : Lb) (glb : GLb) (hg : env.getGuild info.guild_id = true)
    (hm : env.getMember info.guild_id u = true) :
    glbGet0 (flush_one env now u info lb glb).2.2 info.guild_id info.game
      = glbGet0 glb info.guild_id info.game + max (now - info.last_updated) 0 := by
  simp only [flush_one, hg, hm, if_true]
  exact update_game_leaderboard_get0 glb info.guild_id info.game _

theorem flush_sweep_lb_absent (env : Env) (now : Int) :
    ∀ (st : Sessions) (lb : Lb) (glb : GLb) (g x : Nat), keyMem x st = false →
    lbGet0 (flush_sweep env now st lb glb).2.1 g x = lbGet0 lb g x := by
  intro st
  induction st with
  | nil => intro lb glb g x _; rfl
  | cons p rest ih =>
    intro lb glb g x h
    obtain ⟨k, s⟩ := p
    simp only [keyMem, Bool.or_eq_false_iff, beq_eq_false_iff_ne] at h
    simp only [flush_sweep]
    rw [ih _ _ g x h.2]
    exact flush_one_lb_frame env now k s lb glb g x (Ne.symm h.1)

theorem flush_sweep_glb_absent (env : Env) (now : Int) (g : Nat) (game : String) :
    ∀ (st : Sessions) (lb : Lb) (glb : GLb),
    (∀ p ∈ st, ¬(p.2.guild_id = g ∧ p.2.game = game)) →
    glbGet0 (flush_sweep env now st lb glb).2.2 g game = glbGet0 glb g game := by
  intro st
  induction st with
  | nil => intro lb glb _; rfl
  | cons p rest ih =>
    intro lb glb h
    obtain ⟨k, s⟩ := p
    simp only [flush_sweep]
    rw [ih _ _ fun q hq => h q (List.mem_cons_of_mem _ hq)]
    exact flush_one_glb_frame env now k s lb glb g game (h (k, s) (List.mem_cons_self _ _))

theorem flush_sweep_lb_user (env : Env) (now : Int) :
    ∀ (st : Sessions) (lb : Lb) (glb : GLb) (u : Nat) (info : Session),
    keysNodup st = true → slookup u st = some info →
    env.getGuild info.guild_id = true → env.getMember info.guild_id u = true →
    lbGet0 (flush_sweep env now st lb glb).2.1 info.guild_id u
      = lbGet0 lb info.guild_id u + max (now - info.last_updated) 0 := by
  intro st
  induction st with
  | nil => intro lb glb u info _ hs; cases hs
  | cons p rest ih =>
    intro lb glb u info hn hs hg hm
    obtain ⟨k, s⟩ := p
    simp only [keysNodup, Bool.and_eq_true, Bool.not_eq_true'] at hn
    by_cases hk : k = u
    · subst hk
      simp [slookup] at hs
      subst hs
      simp only [flush_sweep]
      rw [flush_sweep_lb_absent env now rest _ _ _ k hn.1]
      exact flush_one_lb_self env now k s lb glb hg hm
    · simp only [slookup, if_neg hk] at hs
      simp only [flush_sweep]
      rw [ih _ _ u info hn.2 hs hg hm]
      rw [flush_one_lb_frame env now k s lb glb info.guild_id u fun he => hk he.symm]

theorem flush_sweep_glb_game (env : Env) (now : Int) :
    ∀ (st : Sessions) (lb : Lb) (glb : GLb) (u : Nat) (info : Session),
    keysNodup st = true → slookup u st = some info →
    env.getGuild info.guild_id = true → env.getMember info.guild_id u = true →
    (∀ p ∈ st, p.1 ≠ u → ¬(p.2.guild_id = info.guild_id ∧ p.2.game = info.game)) →
    glbGet0 (flush_sweep env now st lb glb).2.2 info.guild_id info.game
      = glbGet0 glb info.guild_id info.game + max (now - info.last_updated) 0 := by
  intro st
  induction st with
  | nil => intro lb glb u info _ hs; cases hs
  | cons p rest ih =>
    intro lb glb u info hn hs hg hm hshare
    obtain ⟨k, s⟩ := p
    simp only [keysNodup, Bool.and_eq_true, Bool.not_eq_true'] at hn
    by_cases hk : k = u
    · subst hk
      simp [slookup] at hs
      subst hs
      simp only [flush_sweep]
      rw [flush_sweep_glb_absent env now s.guild_id s.game rest _ _ ?_]
      · exact flush_one_glb_self env now k s lb glb hg hm
      · intro q hq
        exact hshare q (List.mem_cons_of_mem _ hq)
          (keyMem_false_forall hn.1 q hq)
    · simp only [slookup, if_neg hk] at hs
      simp only [flush_sweep]
      rw [ih _ _ u info hn.2 hs hg hm
        fun q hq hqu => hshare q (List.mem_cons_of_mem _ hq) hqu]
      rw [flush_one_glb_frame env now k s lb glb info.guild_id info.game
        (hshare (k, s) (List.mem_cons_self _ _) hk)]

theorem flush_sweep_full (env : Env) (now : Int) (st : Sessions) (lb : Lb)
    (glb : GLb) (u : Nat) (info : Session)
    (h1 : keysNodup st = true) (h2 : slookup u st = some info)
    (hg : env.getGuild info.guild_id = true)
    (hm : env.getMember info.guild_id u = true)
    (hshare : ∀ p ∈ st, p.1 ≠ u →
      ¬(p.2.guild_id = info.guild_id ∧ p.2.game = info.game)) :
    slookup u (flush_sweep env now st lb glb).1
      = some { info with last_updated := now } ∧
    keysNodup (flush_sweep env now st lb glb).1 = true ∧
    lbGet0 (flush_sweep env now st lb glb).2.1 info.guild_id u
      = lbGet0 lb info.guild_id u + max (now - info.last_updated) 0 ∧
    glbGet0 (flush_sweep env now st lb glb).2.2 info.guild_id info.game
      = glbGet0 glb info.guild_id info.game + max (now - info.last_updated) 0 ∧
    (∀ p ∈ (flush_sweep env now st lb glb).1, p.1 ≠ u →
      ¬(p.2.guild_id = info.guild_id ∧ p.2.game = info.game)) := by
  refine ⟨?_, ?_, flush_sweep_lb_user env now st lb glb u info h1 h2 hg hm,
    flush_sweep_glb_game env now st lb glb u info h1 h2 hg hm hshare, ?_⟩
  · rw [flush_sweep_sessions, slookup_mapVals, h2]
    simp only [Option.map_some']
    rw [flushSession_resolved env now u info hg hm]
  · rw [flush_sweep_sessions, keysNodup_mapVals]
    exact h1
  · intro p hp hpu
    rw [flush_sweep_sessions] at hp
    obtain ⟨q, hq, he⟩ := mem_mapVals _ st p hp
    have hf := flushSession_fields env now q.1 q.2
    intro hc
    refine hshare q hq (by rw [he] at hpu; exact hpu) ?_
    rw [he] at hc
    simp only at hc
    exact ⟨by rw [← hf.1]; exact hc.1, by rw [← hf.2.1]; exact hc.2⟩

theorem update_periodically_ne (env : Env) (now : Int) (st : Sessions) (lb : Lb)
    (glb : GLb) (hne : st ≠ []) :
    update_leaderboards_periodically env now st lb glb
      = ((flush_sweep env now st lb glb).1, (flush_sweep env now st lb glb).2.1,
         (flush_sweep env now st lb glb).2.2, true) := by
  cases st with
  | nil => exact absurd rfl hne
  | cons p rest => rfl

/-- An environment in which the flush never finds the session's guild: the
`continue` at src/presence_bot.py line 280 skips the session. -/
def envC1 : Env :=
  { getGuild := fun _ => false, getMember := fun _ _ => false,
    getChannel := fun _ _ => false, sendOk := fun _ _ => false,
    announceChannel := fun _ => false }

/-- C1 counterexample: a session started at t=0 whose guild does not resolve
during the t=300 flush sweep is skipped entirely: its watermark stays 0
(the claim requires it set to 300 "regardless of credit outcome") and nothing
is credited (the claim requires 300s credited to both leaderboards). -/
theorem claim_C1_counterexample :
    slookup 7 (update_leaderboards_periodically envC1 300 [(7, sessEx)]
      (fun _ => none) (fun _ => none)).1 = some sessEx ∧
    sessEx.last_updated = 0 ∧
    lbGet0 (update_leaderboards_periodically envC1 300 [(7, sessEx)]
      (fun _ => none) (fun _ => none)).2.1 1 7 = 0 ∧
    glbGet0 (update_leaderboards_periodically envC1 300 [(7, sessEx)]
      (fun _ => none) (fun _ => none)).2.2.1 1 "Chess" = 0 :=
  ⟨rfl, rfl, rfl, rfl⟩

/-- C1 amended: on each periodic flush sweep, every active session whose
guild and member resolve is credited `now - last_settled_time` to both its
user and game totals and has its watermark set to `now` regardless of credit
outcome, and the session table is saved; so a second flush of the same
session credits only the time past the watermark (start at 0, flush at 300
credits 300, flush again at 360 credits 60 more).  A session whose guild or
member does not resolve is skipped whole: neither credited nor
watermark-advanced (per the counterexample). -/
theorem claim_C1_flush (env : Env) (st : Sessions) (lb : Lb) (glb : GLb)
    (u : Nat) (info : Session) (now now2 : Int)
    (h1 : keysNodup st = true) (h2 : slookup u st = some info)
    (hg : env.getGuild info.guild_id = true)
    (hm : env.getMember info.guild_id u = true)
    (hlu : info.last_updated ≤ now) (hn2 : now ≤ now2)
    (hshare : ∀ p ∈ st, p.1 ≠ u →
      ¬(p.2.guild_id = info.guild_id ∧ p.2.game = info.game)) :
    slookup u (update_leaderboards_periodically env now st lb glb).1
      = some { info with last_updated := now } ∧
    (update_leaderboards_periodically env now st lb glb).2.2.2 = true ∧
    lbGet0 (update_leaderboards_periodically env now st lb glb).2.1
        info.guild_id u
      = lbGet0 lb info.guild_id u + (now - info.last_updated) ∧
    glbGet0 (update_leaderboards_periodically env now st lb glb).2.2.1
        info.guild_id info.game
      = glbGet0 glb info.guild_id info.game + (now - info.last_updated) ∧
    lbGet0 (update_leaderboards_periodically env now2
        (update_leaderboards_periodically env now st lb glb).1
        (update_leaderboards_periodically env now st lb glb).2.1
        (update_leaderboards_periodically env now st lb glb).2.2.1).2.1
        info.guild_id u
      = lbGet0 lb info.guild_id u + (now - info.last_updated) + (now2 - now) := by
  have hne : st ≠ [] := by intro h; rw [h] at h2; cases h2
  have hmax1 : max (now - info.last_updated) 0 = now - info.last_updated :=
    max_eq_left (by omega)
  have hmax2 : max (now2 - now) 0 = now2 - now := max_eq_left (by omega)
  have F1 := flush_sweep_full env now st lb glb u info h1 h2 hg hm hshare
  rw [update_periodically_ne env now st lb glb hne]
  dsimp only
  have hne1 : (flush_sweep env now st lb glb).1 ≠ [] := by
    intro h
    have hl := F1.1
    rw [h] at hl
    simp [slookup] at hl
  rw [update_periodically_ne env now2 _ _ _ hne1]
  dsimp only
  refine ⟨F1.1, rfl, ?_, ?_, ?_⟩
  · rw [F1.2.2.1, hmax1]
  · rw [F1.2.2.2.1, hmax1]
  · have H2 := flush_sweep_lb_user env now2 (flush_sweep env now st lb glb).1
      (flush_sweep env now st lb glb).2.1 (flush_sweep env now st lb glb).2.2 u
      { info with last_updated := now } F1.2.1 F1.1 hg hm
    dsimp only at H2
    rw [H2, hmax2, F1.2.2.1, hmax1]

/-- An environment in which every lookup resolves and every send succeeds. -/
def envOk : Env :=
  { getGuild := fun _ => true, getMember := fun _ _ => true,
    getChannel := fun _ _ => true, sendOk := fun _ _ => true,
    announceChannel := fun _ => true }

theorem claim_C1_flush_witness :
    keysNodup [(5, sessEx)] = true ∧ slookup 5 [(5, sessEx)] = some sessEx ∧
    envOk.getGuild sessEx.guild_id = true ∧
    envOk.getMember sessEx.guild_id 5 = true ∧
    sessEx.last_updated ≤ 300 ∧ (300 : Int) ≤ 360 ∧
    slookup 5 (update_leaderboards_periodically envOk 300 [(5, sessEx)]
        lbEx glbEx).1 = some { sessEx with last_updated := 300 } ∧
    lbGet0 (update_leaderboards_periodically envOk 300 [(5, sessEx)]
        lbEx glbEx).2.1 sessEx.guild_id 5 = 400 ∧
    glbGet0 (update_leaderboards_periodically envOk 300 [(5, sessEx)]
        lbEx glbEx).2.2.1 sessEx.guild_id sessEx.game = 350 ∧
    lbGet0 (update_leaderboards_periodically envOk 360
        (update_leaderboards_periodically envOk 300 [(5, sessEx)] lbEx glbEx).1
        (update_leaderboards_periodically envOk 300 [(5, sessEx)] lbEx glbEx).2.1
        (update_leaderboards_periodically envOk 300 [(5, sessEx)]
          lbEx glbEx).2.2.1).2.1 sessEx.guild_id 5 = 460 := by
  have h := claim_C1_flush envOk [(5, sessEx)] lbEx glbEx 5 sessEx 300 360
    rfl (by decide) rfl rfl (by decide) (by decide) (by decide)
  refine ⟨rfl, by decide, rfl, rfl, by decide, by decide, h.1, ?_, ?_, ?_⟩
  · rw [h.2.2.1]; decide
  · rw [h.2.2.2.1]; decide
  · rw [h.2.2.2.2]; decide

/-! ### Milestone sweep (C4, C10) -/

theorem milestone_step_cases (env : Env) (now : Int) (u : Nat)
    (acc : Session × List (Nat × Nat)) (m' : Nat) :
    milestone_step env now u acc m' = acc ∨
    (m' ∉ acc.1.milestones_hit ∧ env.sendOk u m' = true ∧
     milestone_step env now u acc m'
       = ({ acc.1 with milestones_hit := m' :: acc.1.milestones_hit },
          acc.2 ++ [(u, m')])) := by
  by_cases h1 : ((m' : Int) ≤ (now - acc.1.start_time).fdiv 60
      ∧ m' ∉ acc.1.milestones_hit)
  · by_cases hg : env.getGuild acc.1.guild_id = true
    · by_cases hc : (env.getMember acc.1.guild_id u
          && (match acc.1.channel_id with
              | none => false
              | some cid => env.getChannel acc.1.guild_id cid)) = true
      · by_cases hs : env.sendOk u m' = true
        · right
          exact ⟨h1.2, hs, by simp [milestone_step, h1, hg, hc, hs]⟩
        · left; simp [milestone_step, h1, hg, hc, hs]
      · left; simp [milestone_step, h1, hg, hc]
    · left; simp [milestone_step, h1, hg]
  · left; simp [milestone_step, h1]

theorem milestone_step_channel_none (env : Env) (now : Int) (u : Nat)
    (acc : Session × List (Nat × Nat)) (m' : Nat)
    (h : acc.1.channel_id = none) : milestone_step env now u acc m' = acc := by
  by_cases h1 : ((m' : Int) ≤ (now - acc.1.start_time).fdiv 60
      ∧ m' ∉ acc.1.milestones_hit)
  · by_cases hg : env.getGuild acc.1.guild_id = true
    · simp [milestone_step, h1, hg, h]
    · simp [milestone_step, h1, hg]
  · simp [milestone_step, h1]

theorem milestone_fold_log_mono (env : Env) (now : Int) (u : Nat) :
    ∀ (L : List Nat) (acc : Session × List (Nat × Nat)) (x : Nat × Nat),
    x ∈ acc.2 → x ∈ (L.foldl (milestone_step env now u) acc).2 := by
  intro L
  induction L with
  | nil => intro acc x h; exact h
  | cons m' rest ih =>
    intro acc x h
    rw [List.foldl_cons]
    rcases milestone_step_cases env now u acc m' with hc | ⟨_, _, hc⟩
    · rw [hc]; exact ih acc x h
    · rw [hc]
      exact ih _ x (by simp [h])

theorem milestone_fold_hit_mono (env : Env) (now : Int) (u : Nat) :
    ∀ (L : List Nat) (acc : Session × List (Nat × Nat)) (m : Nat),
    m ∈ acc.1.milestones_hit →
    m ∈ (L.foldl (milestone_step env now u) acc).1.milestones_hit := by
  intro L
  induction L with
  | nil => intro acc m h; exact h
  | cons m' rest ih =>
    intro acc m h
    rw [List.foldl_cons]
    rcases milestone_step_cases env now u acc m' with hc | ⟨_, _, hc⟩
    · rw [hc]; exact ih acc m h
    · rw [hc]
      exact ih _ m (by simp [h])

theorem milestone_fold_fields (env : Env) (now : Int) (u : Nat) :
    ∀ (L : List Nat) (acc : Session × List (Nat × Nat)),
    (L.foldl (milestone_step env now u) acc).1.channel_id = acc.1.channel_id ∧
    (L.foldl (milestone_step env now u) acc).1.start_time = acc.1.start_time ∧
    (L.foldl (milestone_step env now u) acc).1.guild_id = acc.1.guild_id ∧
    (L.foldl (milestone_step env now u) acc).1.game = acc.1.game := by
  intro L
  induction L with
  | nil => intro acc; exact ⟨rfl, rfl, rfl, rfl⟩
  | cons m' rest ih =>
    intro acc
    rw [List.foldl_cons]
    rcases milestone_step_cases env now u acc m' with hc | ⟨_, _, hc⟩
    · rw [hc]; exact ih acc
    · rw [hc]
      exact ih _

theorem milestone_fold_hit_src (env : Env) (now : Int) (u : Nat) :
    ∀ (L : List Nat) (acc : Session × List (Nat × Nat)) (m : Nat),
    m ∈ (L.foldl (milestone_step env now u) acc).1.milestones_hit →
    m ∈ acc.1.milestones_hit ∨ (u, m) ∈ (L.foldl (milestone_step env now u) acc).2 := by
  intro L
  induction L with
  | nil => intro acc m h; exact Or.inl h
  | cons m' rest ih =>
    intro acc m h
    rw [List.foldl_cons] at h ⊢
    rcases milestone_step_cases env now u acc m' with hc | ⟨_, _, hc⟩
    · rw [hc] at h ⊢; exact ih acc m h
    · rw [hc] at h ⊢
      rcases ih _ m h with hm | hm
      · rcases List.mem_cons.mp hm with hm | hm
        · subst hm
          exact Or.inr (milestone_fold_log_mono env now u rest _ _ (by simp))
        · exact Or.inl hm
      · exact Or.inr hm

theorem milestone_fold_inv (env : Env) (now : Int) (u m : Nat) :
    ∀ (L : List Nat) (acc : Session × List (Nat × Nat)),
    pairCount (u, m) acc.2 ≤ 1 → ((u, m) ∈ acc.2 → m ∈ acc.1.milestones_hit) →
    pairCount (u, m) (L.foldl (milestone_step env now u) acc).2 ≤ 1 ∧
    ((u, m) ∈ (L.foldl (milestone_step env now u) acc).2 →
      m ∈ (L.foldl (milestone_step env now u) acc).1.milestones_hit) := by
  intro L
  induction L with
  | nil => intro acc hc hm; exact ⟨hc, hm⟩
  | cons m' rest ih =>
    intro acc hc hm
    rw [List.foldl_cons]
    rcases milestone_step_cases env now u acc m' with hs | ⟨hnm, _, hs⟩
    · rw [hs]; exact ih acc hc hm
    · rw [hs]
      by_cases hmm : m' = m
      · subst hmm
        have hnotin : (u, m') ∉ acc.2 := fun h => hnm (hm h)
        have hzero : pairCount (u, m') acc.2 = 0 := pairCount_eq_zero.mpr hnotin
        refine ih _ ?_ ?_
        · rw [pairCount_append, hzero]
          simp [pairCount]
        · intro _
          simp
      · refine ih _ ?_ ?_
        · rw [pairCount_append]
          have : pairCount (u, m) [(u, m')] = 0 :=
            pairCount_eq_zero.mpr (by simp; exact fun h => hmm h.symm)
          omega
        · intro hin
          rcases List.mem_append.mp hin with hin | hin
          · exact List.mem_cons_of_mem _ (hm hin)
          · simp at hin
            exact absurd hin.symm hmm

theorem milestone_fold_no_resend (env : Env) (now : Int) (u m : Nat) :
    ∀ (L : List Nat) (acc : Session × List (Nat × Nat)),
    m ∈ acc.1.milestones_hit →
    pairCount (u, m) (L.foldl (milestone_step env now u) acc).2
      = pairCount (u, m) acc.2 := by
  intro L
  induction L with
  | nil => intro acc _; rfl
  | cons m' rest ih =>
    intro acc hmem
    rw [List.foldl_cons]
    rcases milestone_step_cases env now u acc m' with hs | ⟨hnm, _, hs⟩
    · rw [hs]; exact ih acc hmem
    · rw [hs]
      have hmm : m' ≠ m := fun he => hnm (he ▸ hmem)
      rw [ih _ (List.mem_cons_of_mem _ hmem), pairCount_append]
      have : pairCount (u, m) [(u, m')] = 0 :=
        pairCount_eq_zero.mpr (by simp; exact fun h => hmm h.symm)
      omega

theorem milestone_fold_log_uid (env : Env) (now : Int) (u : Nat) :
    ∀ (L : List Nat) (acc : Session × List (Nat × Nat)),
    (∀ p ∈ acc.2, p.1 = u) →
    ∀ p ∈ (L.foldl (milestone_step env now u) acc).2, p.1 = u := by
  intro L
  induction L with
  | nil => intro acc h; exact h
  | cons m' rest ih =>
    intro acc h
    rw [List.foldl_cons]
    rcases milestone_step_cases env now u acc m' with hs | ⟨_, _, hs⟩
    · rw [hs]; exact ih acc h
    · rw [hs]
      refine ih _ ?_
      intro p hp
      rcases List.mem_append.mp hp with hp | hp
      · exact h p hp
      · simp at hp
        rw [hp]

theorem pairCount_ne_zero_iff {x : Nat × Nat} {l : List (Nat × Nat)} :
    x ∈ l ↔ pairCount x l ≠ 0 := by
  rw [Ne, pairCount_eq_zero, not_not]

theorem milestone_fold_channel_none (env : Env) (now : Int) (u : Nat) :
    ∀ (L : List Nat) (acc : Session × List (Nat × Nat)),
    acc.1.channel_id = none → L.foldl (milestone_step env now u) acc = acc := by
  intro L
  induction L with
  | nil => intro acc _; rfl
  | cons m' rest ih =>
    intro acc h
    rw [List.foldl_cons, milestone_step_channel_none env now u acc m' h]
    exact ih acc h

theorem check_one_log_uid (env : Env) (now : Int) (u : Nat) (info : Session) :
    ∀ p ∈ (check_one env now u info).2, p.1 = u :=
  milestone_fold_log_uid env now u milestone_thresholds (info, [])
    (by intro p hp; cases hp)

theorem check_one_channel_none (env : Env) (now : Int) (u : Nat) (info : Session)
    (h : info.channel_id = none) : check_one env now u info = (info, []) :=
  milestone_fold_channel_none env now u milestone_thresholds (info, []) h

theorem check_one_inv (env : Env) (now : Int) (u m : Nat) (info : Session) :
    pairCount (u, m) (check_one env now u info).2 ≤ 1 ∧
    ((u, m) ∈ (check_one env now u info).2 →
      m ∈ (check_one env now u info).1.milestones_hit) :=
  milestone_fold_inv env now u m milestone_thresholds (info, [])
    (Nat.zero_le 1) (by intro h; cases h)

theorem check_one_no_resend (env : Env) (now : Int) (u m : Nat) (info : Session)
    (h : m ∈ info.milestones_hit) :
    pairCount (u, m) (check_one env now u info).2 = 0 :=
  milestone_fold_no_resend env now u m milestone_thresholds (info, []) h

theorem check_one_hit_iff (env : Env) (now : Int) (u m : Nat) (info : Session) :
    m ∈ (check_one env now u info).1.milestones_hit ↔
      m ∈ info.milestones_hit ∨ (u, m) ∈ (check_one env now u info).2 := by
  constructor
  · exact milestone_fold_hit_src env now u milestone_thresholds (info, []) m
  · intro h
    rcases h with h | h
    · exact milestone_fold_hit_mono env now u milestone_thresholds (info, []) m h
    · exact (check_one_inv env now u m info).2 h

theorem check_sweep_sessions (env : Env) (now : Int) : ∀ st : Sessions,
    (check_sweep env now st).1
      = mapVals (fun k s => (check_one env now k s).1) st := by
  intro st
  induction st with
  | nil => rfl
  | cons p rest ih =>
    obtain ⟨k, s⟩ := p
    simp only [check_sweep, mapVals]
    rw [ih]

theorem pairCount_zero_of_uid {u m : Nat} {l : List (Nat × Nat)}
    (h : ∀ p ∈ l, p.1 ≠ u) : pairCount (u, m) l = 0 :=
  pairCount_eq_zero.mpr fun hin => h _ hin rfl

theorem check_sweep_log_absent (env : Env) (now : Int) (u m : Nat) :
    ∀ st : Sessions, keyMem u st = false →
    pairCount (u, m) (check_sweep env now st).2 = 0 := by
  intro st
  induction st with
  | nil => intro _; rfl
  | cons p rest ih =>
    intro h
    obtain ⟨k, s⟩ := p
    simp only [keyMem, Bool.or_eq_false_iff, beq_eq_false_iff_ne] at h
    simp only [check_sweep]
    rw [pairCount_append, ih h.2,
      pairCount_zero_of_uid fun p hp => (check_one_log_uid env now k s p hp) ▸ h.1]

theorem check_sweep_log_user (env : Env) (now : Int) (u m : Nat) :
    ∀ (st : Sessions) (info : Session), keysNodup st = true →
    slookup u st = some info →
    pairCount (u, m) (check_sweep env now st).2
      = pairCount (u, m) (check_one env now u info).2 := by
  intro st
  induction st with
  | nil => intro info _ hs; cases hs
  | cons p rest ih =>
    intro info hn hs
    obtain ⟨k, s⟩ := p
    simp only [keysNodup, Bool.and_eq_true, Bool.not_eq_true'] at hn
    by_cases hk : k = u
    · subst hk
      simp [slookup] at hs
      subst hs
      simp only [check_sweep]
      rw [pairCount_append, check_sweep_log_absent env now k m rest hn.1]
      omega
    · simp only [slookup, if_neg hk] at hs
      simp only [check_sweep]
      rw [pairCount_append, ih info hn.2 hs,
        pairCount_zero_of_uid fun p hp => (check_one_log_uid env now k s p hp) ▸ hk]
      omega

theorem update_periodically_sessions (env : Env) (now : Int)
    (st : Sessions) (lb : Lb) (glb : GLb) :
    (update_leaderboards_periodically env now st lb glb).1
      = mapVals (flushSession env now) st := by
  cases st with
  | nil => rfl
  | cons p rest =>
    rw [update_periodically_ne env now (p :: rest) lb glb (by simp)]
    exact flush_sweep_sessions env now (p :: rest) lb glb

theorem run_sweeps_inv (u m : Nat) : ∀ (ops : List SweepOp) (st : Sessions)
    (lb : Lb) (glb : GLb) (info : Session),
    keysNodup st = true → slookup u st = some info →
    ∃ info', slookup u (run_sweeps ops (st, lb, glb)).1.1 = some info' ∧
      (∀ x ∈ info.milestones_hit, x ∈ info'.milestones_hit) ∧
      pairCount (u, m) (run_sweeps ops (st, lb, glb)).2
          + (if m ∈ info.milestones_hit then 1 else 0) ≤ 1 ∧
      ((u, m) ∈ (run_sweeps ops (st, lb, glb)).2 → m ∈ info'.milestones_hit) := by
  intro ops
  induction ops with
  | nil =>
    intro st lb glb info h1 h2
    refine ⟨info, h2, fun x hx => hx, ?_, ?_⟩
    · by_cases hm : m ∈ info.milestones_hit <;> simp [hm, pairCount]
    · intro h; cases h
  | cons op rest ih =>
    intro st lb glb info h1 h2
    cases op with
    | flushAll env now =>
      have hsess := update_periodically_sessions env now st lb glb
      have h1' : keysNodup (update_leaderboards_periodically env now st lb glb).1
          = true := by
        rw [hsess, keysNodup_mapVals]; exact h1
      have h2' : slookup u (update_leaderboards_periodically env now st lb glb).1
          = some (flushSession env now u info) := by
        rw [hsess, slookup_mapVals, h2]; rfl
      have hf := flushSession_fields env now u info
      obtain ⟨info', ha, hb, hc, hd⟩ := ih
        (update_leaderboards_periodically env now st lb glb).1
        (update_leaderboards_periodically env now st lb glb).2.1
        (update_leaderboards_periodically env now st lb glb).2.2.1
        (flushSession env now u info) h1' h2'
      rw [hf.2.2.2.1] at hb hc
      exact ⟨info', ha, hb, hc, hd⟩
    | sweepMilestones env now =>
      have hsess : (check_milestones env now st).1
          = mapVals (fun k s => (check_one env now k s).1) st :=
        check_sweep_sessions env now st
      have h1' : keysNodup (check_milestones env now st).1 = true := by
        rw [hsess, keysNodup_mapVals]; exact h1
      have h2' : slookup u (check_milestones env now st).1
          = some (check_one env now u info).1 := by
        rw [hsess, slookup_mapVals, h2]; rfl
      obtain ⟨info', ha, hb, hc, hd⟩ := ih (check_milestones env now st).1 lb glb
        ((check_one env now u info).1) h1' h2'
      have hcnt : pairCount (u, m) (check_milestones env now st).2.1
          = pairCount (u, m) (check_one env now u info).2 :=
        check_sweep_log_user env now u m st info h1 h2
      have hmono : ∀ x ∈ info.milestones_hit,
          x ∈ (check_one env now u info).1.milestones_hit :=
        fun x hx => milestone_fold_hit_mono env now u milestone_thresholds (info, []) x hx
      refine ⟨info', ha, fun x hx => hb x (hmono x hx), ?_, ?_⟩
      · show pairCount (u, m)
            ((check_milestones env now st).2.1
              ++ (run_sweeps rest ((check_milestones env now st).1, lb, glb)).2)
            + (if m ∈ info.milestones_hit then 1 else 0) ≤ 1
        rw [pairCount_append, hcnt]
        by_cases hm1 : m ∈ info.milestones_hit
        · have hz : pairCount (u, m) (check_one env now u info).2 = 0 :=
            check_one_no_resend env now u m info hm1
          have hm2 : m ∈ (check_one env now u info).1.milestones_hit := hmono m hm1
          rw [if_pos hm2] at hc
          rw [if_pos hm1]
          omega
        · rw [if_neg hm1]
          by_cases hm2 : m ∈ (check_one env now u info).1.milestones_hit
          · rw [if_pos hm2] at hc
            have hle := (check_one_inv env now u m info).1
            omega
          · have hz : pairCount (u, m) (check_one env now u info).2 = 0 :=
              pairCount_eq_zero.mpr fun hin =>
                hm2 ((check_one_inv env now u m info).2 hin)
            rw [if_neg hm2] at hc
            omega
      · intro hin
        rcases List.mem_append.mp hin with hin | hin
        · have : (u, m) ∈ (check_one env now u info).2 := by
            rw [pairCount_ne_zero_iff] at hin ⊢
            rw [← hcnt]
            exact hin
          exact hb m ((check_one_inv env now u m info).2 this)
        · exact hd hin

theorem run_sweeps_channel_none (u : Nat) : ∀ (ops : List SweepOp) (st : Sessions)
    (lb : Lb) (glb : GLb) (info : Session),
    keysNodup st = true → slookup u st = some info → info.channel_id = none →
    ∃ info', slookup u (run_sweeps ops (st, lb, glb)).1.1 = some info' ∧
      info'.channel_id = none ∧ info'.milestones_hit = info.milestones_hit ∧
      ∀ m, (u, m) ∉ (run_sweeps ops (st, lb, glb)).2 := by
  intro ops
  induction ops with
  | nil =>
    intro st lb glb info h1 h2 h3
    exact ⟨info, h2, h3, rfl, fun m h => by cases h⟩
  | cons op rest ih =>
    intro st lb glb info h1 h2 h3
    cases op with
    | flushAll env now =>
      have hsess := update_periodically_sessions env now st lb glb
      have h1' : keysNodup (update_leaderboards_periodically env now st lb glb).1
          = true := by
        rw [hsess, keysNodup_mapVals]; exact h1
      have h2' : slookup u (update_leaderboards_periodically env now st lb glb).1
          = some (flushSession env now u info) := by
        rw [hsess, slookup_mapVals, h2]; rfl
      have hf := flushSession_fields env now u info
      obtain ⟨info', ha, hb, hcn, hrest⟩ := ih
        (update_leaderboards_periodically env now st lb glb).1
        (update_leaderboards_periodically env now st lb glb).2.1
        (update_leaderboards_periodically env now st lb glb).2.2.1
        (flushSession env now u info) h1' h2' (hf.2.2.1.trans h3)
      exact ⟨info', ha, hb, hcn.trans hf.2.2.2.1, hrest⟩
    | sweepMilestones env now =>
      have hone : check_one env now u info = (info, []) :=
        check_one_channel_none env now u info h3
      have hsess : (check_milestones env now st).1
          = mapVals (fun k s => (check_one env now k s).1) st :=
        check_sweep_sessions env now st
      have h1' : keysNodup (check_milestones env now st).1 = true := by
        rw [hsess, keysNodup_mapVals]; exact h1
      have h2' : slookup u (check_milestones env now st).1 = some info := by
        rw [hsess, slookup_mapVals, h2]
        simp [hone]
      obtain ⟨info', ha, hb, hcn, hrest⟩ :=
        ih (check_milestones env now st).1 lb glb info h1' h2' h3
      have hcnt : ∀ m, pairCount (u, m) (check_milestones env now st).2.1 = 0 := by
        intro m
        have hx : pairCount (u, m) (check_milestones env now st).2.1
            = pairCount (u, m) (check_one env now u info).2 :=
          check_sweep_log_user env now u m st info h1 h2
        rw [hx, hone]
        rfl
      refine ⟨info', ha, hb, hcn, ?_⟩
      intro m hin
      have hsplit : (u, m) ∈ (check_milestones env now st).2.1
          ++ (run_sweeps rest ((check_milestones env now st).1, lb, glb)).2 := hin
      rcases List.mem_append.mp hsplit with hin1 | hin1
      · exact (pairCount_ne_zero_iff.mp hin1) (hcnt m)
      · exact hrest m hin1

/-- C4: the milestone log records exactly the successful sends.  In one sweep
a threshold ends up in a session's `milestones_hit` precisely when it was
already there or its message was successfully sent during that sweep — so a
threshold whose send fails (or whose channel or member never resolves) is not
recorded and remains eligible for the next sweep; a threshold already in
`milestones_hit` is never sent during a sweep; and across any sequence of
flush and milestone sweeps each (session, threshold) pair is successfully
sent at most once, and never again once recorded. -/
theorem claim_C4_milestone_once (env : Env) (now : Int) (ops : List SweepOp)
    (st : Sessions) (lb : Lb) (glb : GLb) (u m : Nat) (info : Session)
    (h1 : keysNodup st = true) (h2 : slookup u st = some info) :
    slookup u (check_milestones env now st).1
      = some (check_one env now u info).1 ∧
    (m ∈ (check_one env now u info).1.milestones_hit ↔
      m ∈ info.milestones_hit ∨ (u, m) ∈ (check_milestones env now st).2.1) ∧
    (m ∈ info.milestones_hit →
      pairCount (u, m) (check_milestones env now st).2.1 = 0) ∧
    pairCount (u, m) (run_sweeps ops (st, lb, glb)).2 ≤ 1 ∧
    (m ∈ info.milestones_hit → (u, m) ∉ (run_sweeps ops (st, lb, glb)).2) := by
  have hcnt : pairCount (u, m) (check_milestones env now st).2.1
      = pairCount (u, m) (check_one env now u info).2 :=
    check_sweep_log_user env now u m st info h1 h2
  have hsess : (check_milestones env now st).1
      = mapVals (fun k s => (check_one env now k s).1) st :=
    check_sweep_sessions env now st
  have h2' : slookup u (check_milestones env now st).1
      = some (check_one env now u info).1 := by
    rw [hsess, slookup_mapVals, h2]; rfl
  obtain ⟨info', ha, hb, hc, hd⟩ := run_sweeps_inv u m ops st lb glb info h1 h2
  have hmem : (u, m) ∈ (check_milestones env now st).2.1
      ↔ (u, m) ∈ (check_one env now u info).2 := by
    rw [pairCount_ne_zero_iff, pairCount_ne_zero_iff, hcnt]
  refine ⟨h2', ?_, ?_, ?_, ?_⟩
  · rw [check_one_hit_iff env now u m info, hmem]
  · intro hm
    rw [hcnt]
    exact check_one_no_resend env now u m info hm
  · by_cases hm : m ∈ info.milestones_hit
    · rw [if_pos hm] at hc; omega
    · rw [if_neg hm] at hc; omega
  · intro hm
    rw [if_pos hm] at hc
    have hz : pairCount (u, m) (run_sweeps ops (st, lb, glb)).2 = 0 := by omega
    exact pairCount_eq_zero.mp hz

/-- A session that has already hit its 60-minute milestone. -/
def sessHit : Session :=
  { start_time := 0, last_updated := 0, game := "Chess", milestones_hit := [60],
    guild_id := 1, channel_id := some 9 }

theorem claim_C4_milestone_once_witness :
    keysNodup [(5, sessHit)] = true ∧ slookup 5 [(5, sessHit)] = some sessHit ∧
    (60 ∈ (check_one envOk 7200 5 sessHit).1.milestones_hit ↔
      60 ∈ sessHit.milestones_hit ∨
        (5, 60) ∈ (check_milestones envOk 7200 [(5, sessHit)]).2.1) ∧
    pairCount (5, 60) (run_sweeps
      [.sweepMilestones envOk 7200, .sweepMilestones envOk 7300]
      ([(5, sessHit)], lbEx, glbEx)).2 ≤ 1 ∧
    (5, 60) ∉ (run_sweeps
      [.sweepMilestones envOk 7200, .sweepMilestones envOk 7300]
      ([(5, sessHit)], lbEx, glbEx)).2 := by
  have h := claim_C4_milestone_once envOk 7200
    [.sweepMilestones envOk 7200, .sweepMilestones envOk 7300]
    [(5, sessHit)] lbEx glbEx 5 60 sessHit rfl (by decide)
  exact ⟨rfl, by decide, h.2.1, h.2.2.2.1, h.2.2.2.2 (by decide)⟩

/-- The session record `start_tracking_activity` creates
(src/presence_bot.py, lines 170-177). -/
def freshSession (gid : Nat) (game : String) (ch : Option Nat) (now : Int) : Session :=
  { start_time := now, last_updated := now, game := game, milestones_hit := [],
    guild_id := gid, channel_id := ch }

/-- C10: when the guild has no `presence-update` channel at the moment
`start_tracking_activity` runs, the created session has `channel_id = None`
and no session-start announcement is sent; through any sequence of flush and
milestone sweeps the session keeps `channel_id = None`, its milestone set
stays empty and no milestone message is ever sent for it, however long it
runs. -/
theorem claim_C10_no_channel (ops : List SweepOp) (st : Sessions) (lb : Lb)
    (glb : GLb) (u gid : Nat) (game : String) (now : Int)
    (h1 : keysNodup st = true) (h2 : slookup u st = none) :
    (start_tracking_activity st u gid game none now).2.2 = false ∧
    ∃ info', slookup u (run_sweeps ops
        ((start_tracking_activity st u gid game none now).1, lb, glb)).1.1
        = some info' ∧
      info'.channel_id = none ∧ info'.milestones_hit = [] ∧
      ∀ m, (u, m) ∉ (run_sweeps ops
        ((start_tracking_activity st u gid game none now).1, lb, glb)).2 := by
  have hkm : keyMem u st = false := slookup_none_iff_keyMem.mp h2
  have hst : (start_tracking_activity st u gid game none now).1
      = (u, freshSession gid game none now) :: st := by
    simp [start_tracking_activity, h2, freshSession]
  constructor
  · simp [start_tracking_activity, h2]
  · rw [hst]
    have hn : keysNodup ((u, freshSession gid game none now) :: st) = true := by
      simp [keysNodup, hkm, h1]
    have hl : slookup u ((u, freshSession gid game none now) :: st)
        = some (freshSession gid game none now) := by
      simp [slookup]
    exact run_sweeps_channel_none u ops ((u, freshSession gid game none now) :: st)
      lb glb (freshSession gid game none now) hn hl rfl

theorem claim_C10_no_channel_witness :
    keysNodup [] = true ∧ slookup 5 [] = none ∧
    ((start_tracking_activity [] 5 1 "Chess" none 0).2.2 = false ∧
     ∃ info', slookup 5 (run_sweeps
         [.sweepMilestones envOk 7200, .flushAll envOk 7300,
          .sweepMilestones envOk 14400]
         ((start_tracking_activity [] 5 1 "Chess" none 0).1, lbEx, glbEx)).1.1
         = some info' ∧
       info'.channel_id = none ∧ info'.milestones_hit = [] ∧
       ∀ m, (5, m) ∉ (run_sweeps
         [.sweepMilestones envOk 7200, .flushAll envOk 7300,
          .sweepMilestones envOk 14400]
         ((start_tracking_activity [] 5 1 "Chess" none 0).1, lbEx, glbEx)).2) :=
  ⟨rfl, rfl, claim_C10_no_channel
    [.sweepMilestones envOk 7200, .flushAll envOk 7300,
     .sweepMilestones envOk 14400]
    [] lbEx glbEx 5 1 "Chess" 0 rfl rfl⟩
